import Mathlib

/-!
Verification of the doof-preview backend (src/server.ts): the
generation-and-persistence pipeline.  The TypeScript source is shallowly
embedded below.  External platform facilities (the filesystem, JSON.parse
and JSON.stringify, Date.now, the Gemini client) are modelled at the value
level: a file is a (name, content) pair whose content is some parsed JSON
value, or none when reading or JSON-parsing the file would throw; the
external generation call is an explicit outcome parameter.
-/

/-- Parsed JSON values, the output type of JSON.parse.  Numbers are
modelled as integers: every number this program ever writes or reads is a
string field, so fractional values never arise on any path a claim is
about. -/
inductive Json where
  | null : Json
  | bool (b : Bool) : Json
  | num (n : Int) : Json
  | str (s : String) : Json
  | arr (xs : List Json) : Json
  | obj (fields : List (String × Json)) : Json
deriving Repr

/-- JavaScript values a JSON request body can destructure into, plus
undefined for a missing property. -/
inductive JsVal where
  | undefinedVal : JsVal
  | null : JsVal
  | bool (b : Bool) : JsVal
  | num (n : Int) : JsVal
  | str (s : String) : JsVal
deriving Repr, DecidableEq

/-- A thrown JavaScript error, carrying the text String(error) produces. -/
structure JsError where
  msg : String
deriving Repr, DecidableEq

/-- An HTTP response: a status code and a JSON body. -/
structure HResponse where
  status : Nat
  body : Json
deriving Repr

/-- interface ProjectInstance (src/server.ts line 29): the persisted
record.  All five fields are strings. -/
structure ProjectInstance where
  id : String
  title : String
  description : String
  result : String
  createdAt : String
deriving Repr, DecidableEq

/-- The files of the storage directory: name and parsed content, where
content none means readFile or JSON.parse on that file throws. -/
abbrev FsFiles := List (String × Option Json)

/-- The storage directory as loadInstances sees it: none when mkdir or
readdir itself fails (the directory cannot be created or read). -/
abbrev FsState := Option FsFiles

/-- Model of fs writeFile: overwrite the entry of the same name when one
exists, otherwise append a new entry. -/
def writeFileFS (files : FsFiles) (name : String) (content : Option Json) : FsFiles :=
  if files.any (fun f => f.1 = name) then
    files.map (fun f => if f.1 = name then (name, content) else f)
  else
    files ++ [(name, content)]

/-- Fuel-driven accumulator loop producing the decimal digits of n in
front of acc; any fuel above n is enough. -/
def natDigitsGo : Nat → Nat → List Char → List Char
  | 0, _, acc => acc
  | fuel + 1, n, acc =>
    if n < 10 then Nat.digitChar n :: acc
    else natDigitsGo fuel (n / 10) (Nat.digitChar (n % 10) :: acc)

/-- The decimal digit characters of a natural number. -/
def natDigits (n : Nat) : List Char := natDigitsGo (n + 1) n []

/-- Decimal string of a natural number, the model of toString on the
value of Date.now(). -/
def natToString (n : Nat) : String := ⟨natDigits n⟩

/-- The whitespace characters parseInt skips at the front of its input
(the ASCII ones; the exotic Unicode space classes are immaterial here). -/
def jsWhitespace (c : Char) : Bool :=
  c = ' ' || c = '\t' || c = '\n' || c = '\r' || c = '\x0b' || c = '\x0c'

/-- Model of String.prototype.trim: strip the whitespace characters from
both ends. -/
def jsTrim (s : String) : String :=
  ⟨((s.data.dropWhile jsWhitespace).reverse.dropWhile jsWhitespace).reverse⟩

/-- Value of a longest leading run of decimal digits, accumulating left to
right and stopping at the first non-digit. -/
def parseDigitsAux : List Char → Nat → Nat
  | [], acc => acc
  | c :: cs, acc =>
    if c.isDigit then parseDigitsAux cs (acc * 10 + (c.toNat - 48)) else acc

/-- Longest decimal-digit prefix of a character list, none when the list
does not start with a digit (parseInt then evaluates to NaN). -/
def parseNatPrefix : List Char → Option Nat
  | [] => none
  | c :: cs => if c.isDigit then some (parseDigitsAux cs (c.toNat - 48)) else none

/-- Model of parseInt(s) with no radix argument on a decimal string: skip
leading whitespace, take an optional sign, then the longest digit prefix;
none stands for NaN.  The 0x hex-prefix form never occurs in this program
(every id it writes is a decimal timestamp) and is not modelled. -/
def jsParseIntCore : List Char → Option Int
  | [] => none
  | c :: rest =>
    if c = '-' then (parseNatPrefix rest).map (fun n => -(n : Int))
    else if c = '+' then (parseNatPrefix rest).map (fun n => (n : Int))
    else (parseNatPrefix (c :: rest)).map (fun n => (n : Int))

def jsParseInt (s : String) : Option Int :=
  jsParseIntCore (s.data.dropWhile jsWhitespace)

/-- The numeric sort key loadInstances derives from a parsed file:
parseInt of its id field.  none stands for NaN (no id, non-object, or an
id that parses to no number).  A numeric id field covers the coercion
parseInt(String(n)) performs on it. -/
def jsonIdKey (j : Json) : Option Int :=
  match j with
  | .obj fields =>
    match fields.lookup "id" with
    | some (.str s) => jsParseInt s
    | some (.num n) => some n
    | _ => none
  | _ => none

/-- The comparator (a, b) => parseInt(b.id) - parseInt(a.id) of
loadInstances.  When either key is NaN the subtraction is NaN, which the
sort treats as 0 (neither smaller nor greater). -/
def instCmp (a b : Json) : Int :=
  match jsonIdKey a, jsonIdKey b with
  | some ka, some kb => kb - ka
  | _, _ => 0

/-- Insert one element into an already sorted list: it goes before the
first element it compares at or below, so elements comparing equal keep
their original order, as the stable Array.prototype.sort guarantees. -/
def insertSorted (x : Json) : List Json → List Json
  | [] => [x]
  | y :: ys => if instCmp x y ≤ 0 then x :: y :: ys else y :: insertSorted x ys

/-- Stable sort by instCmp, the model of instances.sort(comparator).  For
a consistent comparator every stable sort produces the same list, so this
matches the engine sort on every input whose keys all parse. -/
def sortInsts : List Json → List Json
  | [] => []
  | x :: xs => insertSorted x (sortInsts xs)

/-- f.endsWith(".json"): the file-name filter of loadInstances. -/
def endsWithJson (name : String) : Bool :=
  ".json".data.isSuffixOf name.data

/-- The parsed contents of the .json files of a storage directory, in
directory order. -/
def storedJsons (files : FsFiles) : List Json :=
  (files.filter (fun f => endsWithJson f.1)).filterMap (fun f => f.2)

/-- loadInstances (src/server.ts line 71): list the directory, read and
JSON.parse every .json file, and sort descending by numeric id.  Any
failure — an unreadable directory, or one file whose read or parse throws
(which rejects the whole Promise.all) — is caught and yields []. -/
def loadInstances (st : FsState) : List Json :=
  match st with
  | none => []
  | some files =>
    let jsonFiles := files.filter (fun f => endsWithJson f.1)
    if jsonFiles.any (fun f => f.2.isNone) then []
    else sortInsts (jsonFiles.filterMap (fun f => f.2))

/-- JSON.stringify applied to a ProjectInstance, at the parsed-value
level: the object literal of src/server.ts line 55, in field order. -/
def instToJson (p : ProjectInstance) : Json :=
  .obj [("id", .str p.id), ("title", .str p.title),
        ("description", .str p.description), ("result", .str p.result),
        ("createdAt", .str p.createdAt)]

/-- Reading a ProjectInstance back out of a decoded JSON value: the five
string fields, none when one is absent or not a string.  This is the
decode direction of the round-trip property; the server itself casts
without checking. -/
def instOfJson (j : Json) : Option ProjectInstance :=
  match j with
  | .obj fields =>
    match fields.lookup "id", fields.lookup "title", fields.lookup "description",
          fields.lookup "result", fields.lookup "createdAt" with
    | some (.str i), some (.str t), some (.str d), some (.str r), some (.str c) =>
      some ⟨i, t, d, r, c⟩
    | _, _, _, _, _ => none
  | _ => none

/-- saveInstance (src/server.ts line 52): build the record from the
current time and write it to STORAGE_DIR/id.json.  now is the value of
Date.now() in milliseconds and createdAt the ISO string of the same
moment. -/
def saveInstance (files : FsFiles) (now : Nat) (createdAt : String)
    (title description result : String) : ProjectInstance × FsFiles :=
  let inst : ProjectInstance :=
    { id := natToString now, title := title, description := description,
      result := result, createdAt := createdAt }
  (inst, writeFileFS files (natToString now ++ ".json") (some (instToJson inst)))

/-- response.text || "The Generic-inator" (src/server.ts line 49): the
external response text is none when the field is absent, and the empty
string is falsy, so both fall back to the default. -/
def textOrDefault (t : Option String) : String :=
  match t with
  | none => "The Generic-inator"
  | some s => if s = "" then "The Generic-inator" else s

/-- generateInatorName (src/server.ts line 37): throws when the client is
null, otherwise performs the external call — whose outcome, success with
an optional text or a thrown error, is the explicit argument — and
applies the default fallback. -/
def generateInatorName (genAI : Bool) (outcome : Except JsError (Option String)) :
    Except JsError String :=
  if genAI then
    match outcome with
    | .error e => .error e
    | .ok t => .ok (textOrDefault t)
  else .error ⟨"Error: Gemini not initialized - check GEMINI_API_KEY"⟩

/-- The test !v?.trim() applied to a destructured body field: true for a
nullish value or a blank string (both lead to the 400 response), false
for a non-blank string, and a thrown TypeError for any other value, whose
trim property is not a function. -/
def checkBlank (v : JsVal) : Except JsError Bool :=
  match v with
  | .undefinedVal => .ok true
  | .null => .ok true
  | .str s => .ok (jsTrim s = "")
  | .bool b => .error ⟨"TypeError: " ++ (if b then "true" else "false") ++ ".trim is not a function"⟩
  | .num _ => .error ⟨"TypeError: n.trim is not a function"⟩

/-- Property lookup on the parsed request body, undefined when absent. -/
def bodyGet (fields : List (String × JsVal)) (k : String) : JsVal :=
  match fields.lookup k with
  | some v => v
  | none => .undefinedVal

/-- The 500 response of the generic catch: {error: "Failed", message:
String(error)}. -/
def failedResponse (e : JsError) : HResponse :=
  ⟨500, .obj [("error", .str "Failed"), ("message", .str e.msg)]⟩

/-- app.post("/api/generate") (src/server.ts line 111).  genAI tells
whether the Gemini client was initialized; genOutcome is the outcome the
external call would have; body is the parsed JSON body (none when
c.req.json() throws); now and createdAt model the clock.  Returns the
response and the storage directory contents after the request. -/
def postGenerate (genAI : Bool) (genOutcome : Except JsError (Option String))
    (now : Nat) (createdAt : String) (body : Option (List (String × JsVal)))
    (files : FsFiles) : HResponse × FsFiles :=
  if genAI then
    match body with
    | none => (failedResponse ⟨"SyntaxError: Unexpected token in JSON"⟩, files)
    | some fields =>
      match checkBlank (bodyGet fields "title") with
      | .error e => (failedResponse e, files)
      | .ok true => (⟨400, .obj [("error", .str "Required")]⟩, files)
      | .ok false =>
        match checkBlank (bodyGet fields "description") with
        | .error e => (failedResponse e, files)
        | .ok true => (⟨400, .obj [("error", .str "Required")]⟩, files)
        | .ok false =>
          match bodyGet fields "title", bodyGet fields "description" with
          | .str title, .str description =>
            match generateInatorName genAI genOutcome with
            | .error e => (failedResponse e, files)
            | .ok result =>
              let saved := saveInstance files now createdAt title description result
              (⟨200, instToJson saved.1⟩, saved.2)
          | _, _ => (failedResponse ⟨"unreachable"⟩, files)
  else
    (⟨503, .obj [("error", .str "Service unavailable - API key not configured")]⟩, files)

/-- The configuration surface the server reads at startup. -/
structure ServerConfig where
  geminiKey : Option String
  vercel : Bool
  cwd : String

/-- The Gemini client is initialized exactly when GEMINI_API_KEY is set
(src/server.ts line 14). -/
def geminiConfigured (cfg : ServerConfig) : Bool :=
  cfg.geminiKey.isSome

/-- path.join as used for STORAGE_DIR, without dot-segment
normalization, which no claim depends on. -/
def joinPath (a b : String) : String := a ++ "/" ++ b

/-- STORAGE_DIR (src/server.ts line 25): /tmp/storage on Vercel,
otherwise ../storage relative to the working directory. -/
def STORAGE_DIR (cfg : ServerConfig) : String :=
  if cfg.vercel then joinPath "/tmp" "storage"
  else joinPath (joinPath cfg.cwd "..") "storage"

/-- app.get("/health") (src/server.ts line 92): a 200 response whose JSON
body has the keys status, gemini and storage. -/
def healthHandler (cfg : ServerConfig) : HResponse :=
  ⟨200, .obj [("status", .str "ok"),
              ("gemini", .bool (geminiConfigured cfg)),
              ("storage", .str (STORAGE_DIR cfg))]⟩

/-- Field lookup on a parsed JSON object. -/
def jsonGetField (j : Json) (k : String) : Option Json :=
  match j with
  | .obj fields => fields.lookup k
  | _ => none

/-- Whether a parsed JSON object carries a given key. -/
def jsonHasField (j : Json) (k : String) : Bool :=
  (jsonGetField j k).isSome

/-- A body field the validation counts as missing or blank: absent, null,
or a string that trims to empty. -/
def isBlankVal (v : JsVal) : Bool :=
  match v with
  | .undefinedVal => true
  | .null => true
  | .str s => jsTrim s == ""
  | _ => false

/-- A body field that passes the validation: a string with non-blank
trimmed content. -/
def isNonBlankStr (v : JsVal) : Bool :=
  match v with
  | .str s => !(jsTrim s == "")
  | _ => false

/-- A body field that is present and non-null but not a string, on which
calling trim throws a TypeError. -/
def isNonStrValue (v : JsVal) : Bool :=
  match v with
  | .bool _ => true
  | .num _ => true
  | _ => false

/-- Recursive characterization of the decimal digits, used by the proofs
(the executable natDigitsGo is fuel-driven). -/
def decChars (n : Nat) : List Char :=
  if _h : n < 10 then [Nat.digitChar n]
  else decChars (n / 10) ++ [Nat.digitChar (n % 10)]
decreasing_by
  exact Nat.div_lt_self (by omega) (by omega)

/-- The descending-key order the sorted listing satisfies. -/
def keyGE (a b : Json) : Prop :=
  (jsonIdKey b).getD 0 ≤ (jsonIdKey a).getD 0

/-- The key-parses invariant of a directory, phrased per file so it can be
pushed through writes. -/
def FileKeyOk (f : String × Option Json) : Prop :=
  endsWithJson f.1 = true → ∀ j, f.2 = some j → (jsonIdKey j).isSome = true

/-! ### Decimal printing and parseInt round-trip -/

theorem natDigitsGo_eq_decChars :
    ∀ (fuel n : Nat) (acc : List Char), n < fuel →
      natDigitsGo fuel n acc = decChars n ++ acc := by
  intro fuel
  induction fuel with
  | zero => intro n acc h; omega
  | succ f ih =>
    intro n acc h
    by_cases hn : n < 10
    · rw [natDigitsGo, if_pos hn, decChars, dif_pos hn]
      rfl
    · rw [natDigitsGo, if_neg hn, decChars, dif_neg hn,
        ih (n / 10) _ (by omega), List.append_assoc]
      rfl

theorem natDigits_eq_decChars (n : Nat) : natDigits n = decChars n := by
  rw [natDigits, natDigitsGo_eq_decChars (n + 1) n [] (Nat.lt_succ_self n),
    List.append_nil]

theorem decChars_ne_nil (n : Nat) : decChars n ≠ [] := by
  by_cases hn : n < 10
  · rw [decChars, dif_pos hn]; simp
  · rw [decChars, dif_neg hn]; simp

theorem decChars_all_digitChar (n : Nat) :
    ∀ c ∈ decChars n, ∃ k, k < 10 ∧ c = Nat.digitChar k := by
  induction n using Nat.strong_induction_on with
  | _ n ih =>
    by_cases hn : n < 10
    · rw [decChars, dif_pos hn]
      intro c hc
      simp only [List.mem_singleton] at hc
      exact ⟨n, hn, hc⟩
    · rw [decChars, dif_neg hn]
      intro c hc
      rcases List.mem_append.mp hc with h1 | h2
      · exact ih (n / 10) (Nat.div_lt_self (by omega) (by omega)) c h1
      · simp only [List.mem_singleton] at h2
        exact ⟨n % 10, Nat.mod_lt n (by omega), h2⟩

theorem digitChar_props : ∀ k, k < 10 →
    (Nat.digitChar k).isDigit = true ∧ jsWhitespace (Nat.digitChar k) = false ∧
    (Nat.digitChar k).toNat - 48 = k ∧
    Nat.digitChar k ≠ '-' ∧ Nat.digitChar k ≠ '+' := by decide

theorem parseDigitsAux_append (l1 l2 : List Char)
    (h : ∀ c ∈ l1, c.isDigit = true) : ∀ acc,
    parseDigitsAux (l1 ++ l2) acc = parseDigitsAux l2 (parseDigitsAux l1 acc) := by
  induction l1 with
  | nil => intro acc; rfl
  | cons c cs ih =>
    intro acc
    have hc : c.isDigit = true := h c (List.mem_cons_self c cs)
    rw [List.cons_append, parseDigitsAux, if_pos hc, parseDigitsAux, if_pos hc,
      ih (fun d hd => h d (List.mem_cons_of_mem c hd))]

theorem parseNatPrefix_decChars (n : Nat) :
    parseNatPrefix (decChars n) = some n := by
  induction n using Nat.strong_induction_on with
  | _ n ih =>
    by_cases hn : n < 10
    · rw [decChars, dif_pos hn, parseNatPrefix,
        if_pos (digitChar_props n hn).1, parseDigitsAux]
      rw [(digitChar_props n hn).2.2.1]
    · rw [decChars, dif_neg hn]
      have hne := decChars_ne_nil (n / 10)
      obtain ⟨c, cs, hcs⟩ := List.exists_cons_of_ne_nil hne
      have hall := decChars_all_digitChar (n / 10)
      rw [hcs] at hall
      obtain ⟨k, hk, hck⟩ := hall c (List.mem_cons_self c cs)
      have hcdig : c.isDigit = true := by rw [hck]; exact (digitChar_props k hk).1
      have hprev := ih (n / 10) (Nat.div_lt_self (by omega) (by omega))
      rw [hcs, parseNatPrefix, if_pos hcdig] at hprev
      have hval : parseDigitsAux cs (c.toNat - 48) = n / 10 :=
        Option.some_injective _ hprev
      have hcsdig : ∀ d ∈ cs, d.isDigit = true := by
        intro d hd
        obtain ⟨m, hm, hdm⟩ := hall d (List.mem_cons_of_mem c hd)
        rw [hdm]; exact (digitChar_props m hm).1
      rw [hcs, List.cons_append, parseNatPrefix, if_pos hcdig,
        parseDigitsAux_append cs _ hcsdig, hval, parseDigitsAux,
        if_pos (digitChar_props (n % 10) (Nat.mod_lt n (by omega))).1,
        parseDigitsAux, (digitChar_props (n % 10) (Nat.mod_lt n (by omega))).2.2.1]
      congr 1
      omega

theorem data_natToString (n : Nat) : (natToString n).data = decChars n := by
  rw [natToString, natDigits_eq_decChars]

theorem jsParseInt_natToString (n : Nat) :
    jsParseInt (natToString n) = some (n : Int) := by
  have hne := decChars_ne_nil n
  obtain ⟨c, cs, hcs⟩ := List.exists_cons_of_ne_nil hne
  have hall := decChars_all_digitChar n
  rw [hcs] at hall
  obtain ⟨k, hk, hck⟩ := hall c (List.mem_cons_self c cs)
  have hprops := digitChar_props k hk
  rw [jsParseInt, data_natToString, hcs]
  rw [List.dropWhile_cons_of_neg (by rw [hck, hprops.2.1]; simp)]
  rw [jsParseIntCore, if_neg (by rw [hck]; exact hprops.2.2.2.1),
    if_neg (by rw [hck]; exact hprops.2.2.2.2)]
  rw [← hcs, parseNatPrefix_decChars n]
  rfl

theorem natToString_injective : Function.Injective natToString := by
  intro a b h
  have h1 := jsParseInt_natToString a
  rw [h, jsParseInt_natToString b] at h1
  have h2 := Option.some_injective _ h1
  exact_mod_cast h2.symm

/-! ### Storage and sorting lemmas -/

theorem endsWithJson_append (s : String) : endsWithJson (s ++ ".json") = true := by
  rw [endsWithJson, String.data_append]
  exact List.isSuffixOf_iff_suffix.mpr (List.suffix_append s.data ".json".data)

theorem mem_writeFileFS_self (files : FsFiles) (name : String) (content : Option Json) :
    (name, content) ∈ writeFileFS files name content := by
  rw [writeFileFS]
  split
  · next h =>
    obtain ⟨f, hf, hf1⟩ := List.any_eq_true.mp h
    refine List.mem_map.mpr ⟨f, hf, ?_⟩
    rw [if_pos (by exact of_decide_eq_true hf1)]
  · exact List.mem_append_right _ (List.mem_singleton.mpr rfl)

theorem mem_writeFileFS_of_ne (files : FsFiles) (name : String) (content : Option Json)
    (f : String × Option Json) (hf : f ∈ files) (hne : f.1 ≠ name) :
    f ∈ writeFileFS files name content := by
  rw [writeFileFS]
  split
  · exact List.mem_map.mpr ⟨f, hf, by rw [if_neg hne]⟩
  · exact List.mem_append_left _ hf

theorem writeFileFS_forall (P : String × Option Json → Prop) (files : FsFiles)
    (name : String) (content : Option Json)
    (h : ∀ f ∈ files, P f) (hnew : P (name, content)) :
    ∀ f ∈ writeFileFS files name content, P f := by
  intro f hf
  rw [writeFileFS] at hf
  split at hf
  · obtain ⟨g, hg, hgf⟩ := List.mem_map.mp hf
    by_cases hg1 : g.1 = name
    · rw [if_pos hg1] at hgf; rw [← hgf]; exact hnew
    · rw [if_neg hg1] at hgf; rw [← hgf]; exact h g hg
  · rcases List.mem_append.mp hf with h1 | h2
    · exact h f h1
    · rw [List.mem_singleton.mp h2]; exact hnew

theorem mem_storedJsons (files : FsFiles) (name : String) (j : Json)
    (hmem : (name, some j) ∈ files) (hjson : endsWithJson name = true) :
    j ∈ storedJsons files := by
  rw [storedJsons]
  exact List.mem_filterMap.mpr
    ⟨(name, some j), List.mem_filter.mpr ⟨hmem, by simpa using hjson⟩, rfl⟩

theorem exists_of_mem_storedJsons (files : FsFiles) (j : Json)
    (h : j ∈ storedJsons files) :
    ∃ f ∈ files, endsWithJson f.1 = true ∧ f.2 = some j := by
  rw [storedJsons] at h
  obtain ⟨f, hf, hfj⟩ := List.mem_filterMap.mp h
  have hfilt := List.mem_filter.mp hf
  exact ⟨f, hfilt.1, by simpa using hfilt.2, hfj⟩

theorem insertSorted_perm (x : Json) (l : List Json) :
    (insertSorted x l).Perm (x :: l) := by
  induction l with
  | nil => exact List.Perm.refl _
  | cons y ys ih =>
    rw [insertSorted]
    split
    · exact List.Perm.refl _
    · exact (ih.cons y).trans (List.Perm.swap x y ys)

theorem sortInsts_perm (l : List Json) : (sortInsts l).Perm l := by
  induction l with
  | nil => exact List.Perm.refl _
  | cons x xs ih => exact (insertSorted_perm x (sortInsts xs)).trans (ih.cons x)

theorem mem_sortInsts {l : List Json} {j : Json} : j ∈ sortInsts l ↔ j ∈ l :=
  (sortInsts_perm l).mem_iff

theorem instCmp_nonpos_iff {a b : Json} (ha : (jsonIdKey a).isSome = true)
    (hb : (jsonIdKey b).isSome = true) : instCmp a b ≤ 0 ↔ keyGE a b := by
  obtain ⟨ka, hka⟩ := Option.isSome_iff_exists.mp ha
  obtain ⟨kb, hkb⟩ := Option.isSome_iff_exists.mp hb
  simp only [instCmp, keyGE, hka, hkb, Option.getD_some]
  omega

theorem keyGE_trans {a b c : Json} (h1 : keyGE a b) (h2 : keyGE b c) : keyGE a c :=
  le_trans h2 h1

theorem mem_insertSorted {x j : Json} {l : List Json} :
    j ∈ insertSorted x l ↔ j = x ∨ j ∈ l := by
  have := (insertSorted_perm x l).mem_iff (a := j)
  rw [this, List.mem_cons]

theorem pairwise_insertSorted (x : Json) (l : List Json)
    (hx : (jsonIdKey x).isSome = true)
    (hl : ∀ y ∈ l, (jsonIdKey y).isSome = true)
    (h : l.Pairwise keyGE) : (insertSorted x l).Pairwise keyGE := by
  induction l with
  | nil => exact List.pairwise_singleton keyGE x
  | cons y ys ih =>
    have hy : (jsonIdKey y).isSome = true := hl y (List.mem_cons_self y ys)
    have hys : ∀ z ∈ ys, (jsonIdKey z).isSome = true :=
      fun z hz => hl z (List.mem_cons_of_mem y hz)
    rw [insertSorted]
    split
    · next hle =>
      refine List.Pairwise.cons ?_ h
      intro z hz
      rcases List.mem_cons.mp hz with hzy | hzys
      · rw [hzy]; exact (instCmp_nonpos_iff hx hy).mp hle
      · exact keyGE_trans ((instCmp_nonpos_iff hx hy).mp hle)
          ((List.pairwise_cons.mp h).1 z hzys)
    · next hgt =>
      have hyx : keyGE y x := by
        obtain ⟨ka, hka⟩ := Option.isSome_iff_exists.mp hx
        obtain ⟨kb, hkb⟩ := Option.isSome_iff_exists.mp hy
        simp only [instCmp, hka, hkb] at hgt
        simp only [keyGE, hka, hkb, Option.getD_some]
        omega
      refine List.Pairwise.cons ?_ (ih hys (List.pairwise_cons.mp h).2)
      intro z hz
      rcases mem_insertSorted.mp hz with hzx | hzys
      · rw [hzx]; exact hyx
      · exact (List.pairwise_cons.mp h).1 z hzys

theorem pairwise_sortInsts (l : List Json)
    (hl : ∀ y ∈ l, (jsonIdKey y).isSome = true) :
    (sortInsts l).Pairwise keyGE := by
  induction l with
  | nil => exact List.Pairwise.nil
  | cons x xs ih =>
    exact pairwise_insertSorted x (sortInsts xs)
      (hl x (List.mem_cons_self x xs))
      (fun y hy => hl y (List.mem_cons_of_mem x (mem_sortInsts.mp hy)))
      (ih fun y hy => hl y (List.mem_cons_of_mem x hy))

theorem loadInstances_eq_sortInsts (files : FsFiles)
    (hp : ∀ f ∈ files, endsWithJson f.1 = true → (f.2).isSome = true) :
    loadInstances (some files) = sortInsts (storedJsons files) := by
  rw [loadInstances, storedJsons]
  have hany : (files.filter (fun f => endsWithJson f.1)).any (fun f => f.2.isNone) = false := by
    rw [List.any_eq_false]
    intro f hf
    have hfilt := List.mem_filter.mp hf
    have hs := hp f hfilt.1 (by simpa using hfilt.2)
    cases hf2 : f.2 with
    | none => rw [hf2] at hs; simp at hs
    | some j => simp [hf2]
  simp only [hany, Bool.false_eq_true, if_false]

/-! ### Handler-level helper lemmas -/

theorem textOrDefault_ne_empty (t : Option String) : textOrDefault t ≠ "" := by
  cases t with
  | none => simp [textOrDefault]
  | some s =>
    rw [textOrDefault]
    split
    · simp
    · next hs => exact hs

theorem generateInatorName_ok {g : Except JsError (Option String)} {r : String}
    (h : generateInatorName true g = .ok r) :
    ∃ u, g = .ok u ∧ r = textOrDefault u := by
  cases g with
  | error e => simp [generateInatorName] at h
  | ok u =>
    simp only [generateInatorName, if_true] at h
    exact ⟨u, rfl, (Except.ok.injEq _ _ ▸ h).symm⟩

theorem checkBlank_ok_false {v : JsVal} (h : checkBlank v = .ok false) :
    ∃ s, v = .str s ∧ jsTrim s ≠ "" := by
  cases v with
  | str s =>
    refine ⟨s, rfl, ?_⟩
    simp only [checkBlank, Except.ok.injEq] at h
    intro hs
    rw [hs] at h
    simp at h
  | undefinedVal => simp [checkBlank] at h
  | null => simp [checkBlank] at h
  | bool b => simp [checkBlank] at h
  | num n => simp [checkBlank] at h

theorem instOfJson_instToJson (p : ProjectInstance) :
    instOfJson (instToJson p) = some p := rfl

theorem jsonIdKey_instToJson (p : ProjectInstance) :
    jsonIdKey (instToJson p) = jsParseInt p.id := rfl

theorem saveInstance_eq (files : FsFiles) (now : Nat) (ca ti de res : String) :
    saveInstance files now ca ti de res =
      (⟨natToString now, ti, de, res, ca⟩,
       writeFileFS files (natToString now ++ ".json")
         (some (instToJson ⟨natToString now, ti, de, res, ca⟩))) := rfl

/-! ### Claim theorems -/

/-- Claim C1: For every call generate(title, description) where the external
generation call succeeds but yields no text (empty or absent), generate
returns the fixed default string "The Generic-inator" rather than
failing, and consequently every successful /api/generate request stores a
record whose result field is non-empty. -/
theorem generate_empty_text_defaults_and_saved_result_nonempty
    (t : Option String) (h : t = none ∨ t = some "") :
    generateInatorName true (.ok t) = .ok "The Generic-inator" ∧
    (∀ (g : Except JsError (Option String)) (now : Nat) (ca : String)
       (body : Option (List (String × JsVal))) (files : FsFiles),
       (postGenerate true g now ca body files).1.status = 200 →
       ∃ inst : ProjectInstance,
         (postGenerate true g now ca body files).1.body = instToJson inst ∧
         inst.result ≠ "" ∧
         (natToString now ++ ".json", some (instToJson inst)) ∈
           (postGenerate true g now ca body files).2) := by
  constructor
  · rcases h with h | h <;> rw [h] <;> rfl
  · intro g now ca body files hst
    cases body with
    | none => simp [postGenerate, failedResponse] at hst
    | some fields =>
      rcases hcb1 : checkBlank (bodyGet fields "title") with e1 | b1
      · simp [postGenerate, hcb1, failedResponse] at hst
      cases b1 with
      | true => simp [postGenerate, hcb1] at hst
      | false =>
        rcases hcb2 : checkBlank (bodyGet fields "description") with e2 | b2
        · simp [postGenerate, hcb1, hcb2, failedResponse] at hst
        cases b2 with
        | true => simp [postGenerate, hcb1, hcb2] at hst
        | false =>
          obtain ⟨s1, hs1, _⟩ := checkBlank_ok_false hcb1
          obtain ⟨s2, hs2, _⟩ := checkBlank_ok_false hcb2
          rw [hs1] at hcb1
          rw [hs2] at hcb2
          rcases hg : generateInatorName true g with e | r
          · simp [postGenerate, hs1, hs2, hcb1, hcb2, hg, failedResponse] at hst
          · obtain ⟨u, hu, hru⟩ := generateInatorName_ok hg
            refine ⟨⟨natToString now, s1, s2, r, ca⟩, ?_, ?_, ?_⟩
            · simp [postGenerate, hs1, hs2, hcb1, hcb2, hg, saveInstance_eq]
            · rw [hru]; exact textOrDefault_ne_empty u
            · simp only [postGenerate, hs1, hs2, hcb1, hcb2, hg, if_true,
                saveInstance_eq]
              exact mem_writeFileFS_self files _ _

theorem generate_empty_text_defaults_witness :
    generateInatorName true (.ok (some "")) = .ok "The Generic-inator" :=
  (generate_empty_text_defaults_and_saved_result_nonempty (some "") (Or.inr rfl)).1

/-- Claim C3: While the generation client is null (no API credential), every
POST /api/generate request gets status 503 and storage is untouched. -/
theorem unconfigured_post_generate_503_and_no_write
    (g : Except JsError (Option String)) (now : Nat) (ca : String)
    (body : Option (List (String × JsVal))) (files : FsFiles) :
    (postGenerate false g now ca body files).1.status = 503 ∧
    (postGenerate false g now ca body files).2 = files := by
  exact ⟨rfl, rfl⟩

/-- Claim C5: listAll on an unreadable, nonexistent (created empty on demand)
or empty storage location returns the empty sequence, not an error. -/
theorem loadInstances_empty_or_unreadable_gives_nil
    (st : FsState) (h : st = none ∨ st = some []) :
    loadInstances st = [] := by
  rcases h with h | h <;> rw [h] <;> rfl

theorem loadInstances_empty_witness : loadInstances none = [] :=
  loadInstances_empty_or_unreadable_gives_nil none (Or.inl rfl)

/-- Claim C10: One .json file whose contents fail to read or parse makes
loadInstances return the empty sequence, discarding every valid record
too. -/
theorem corrupt_json_file_empties_listing
    (files : FsFiles) (name : String)
    (h1 : (name, (none : Option Json)) ∈ files)
    (h2 : endsWithJson name = true) :
    loadInstances (some files) = [] := by
  rw [loadInstances]
  have hany : (files.filter (fun f => endsWithJson f.1)).any (fun f => f.2.isNone) = true := by
    refine List.any_eq_true.mpr ⟨(name, none), ?_, rfl⟩
    exact List.mem_filter.mpr ⟨h1, by simpa using h2⟩
  simp only [hany, if_true]

theorem corrupt_json_file_witness :
    loadInstances (some [("good.json", some (.obj [("id", .str "1")])),
                        ("bad.json", none)]) = [] :=
  corrupt_json_file_empties_listing _ "bad.json"
    (List.mem_cons_of_mem _ (List.mem_singleton.mpr rfl)) (by decide)

/-- Claim C2, counterexample: with the generation client not configured, a
request whose title is blank gets 503, not the 400 the claim states, so
the claim does not hold for every request with a blank field. -/
theorem blank_title_unconfigured_503_not_400 :
    (postGenerate false (.ok (some "X")) 0 "2024-01-01T00:00:00.000Z"
      (some [("title", .str ""), ("description", .str "x")]) []).1.status = 503 ∧
    (postGenerate false (.ok (some "X")) 0 "2024-01-01T00:00:00.000Z"
      (some [("title", .str ""), ("description", .str "x")]) []).1.status ≠ 400 := by
  exact ⟨rfl, by decide⟩

/-- Claim C2, amended: while the generation client is configured, a request
whose title is missing or blank — or whose title is a non-blank string
and whose description is missing or blank — gets status 400 with body
{error: "Required"}, and no record is written. -/
theorem configured_blank_field_gives_400_and_no_write
    (g : Except JsError (Option String)) (now : Nat) (ca : String)
    (fields : List (String × JsVal)) (files : FsFiles)
    (h : isBlankVal (bodyGet fields "title") = true ∨
         (isNonBlankStr (bodyGet fields "title") = true ∧
          isBlankVal (bodyGet fields "description") = true)) :
    (postGenerate true g now ca (some fields) files).1 =
      ⟨400, .obj [("error", .str "Required")]⟩ ∧
    (postGenerate true g now ca (some fields) files).2 = files := by
  rcases h with hb | ⟨ht, hd⟩
  · rcases hv : bodyGet fields "title" with _ | _ | b | n | s
    · exact ⟨by simp [postGenerate, hv, checkBlank], by simp [postGenerate, hv, checkBlank]⟩
    · exact ⟨by simp [postGenerate, hv, checkBlank], by simp [postGenerate, hv, checkBlank]⟩
    · rw [hv] at hb; simp [isBlankVal] at hb
    · rw [hv] at hb; simp [isBlankVal] at hb
    · rw [hv] at hb
      have hs : jsTrim s = "" := by simpa [isBlankVal] using hb
      exact ⟨by simp [postGenerate, hv, checkBlank, hs],
             by simp [postGenerate, hv, checkBlank, hs]⟩
  · rcases hv : bodyGet fields "title" with _ | _ | b | n | s
    · rw [hv] at ht; simp [isNonBlankStr] at ht
    · rw [hv] at ht; simp [isNonBlankStr] at ht
    · rw [hv] at ht; simp [isNonBlankStr] at ht
    · rw [hv] at ht; simp [isNonBlankStr] at ht
    · rw [hv] at ht
      have hs : ¬(jsTrim s = "") := by simpa [isNonBlankStr] using ht
      rcases hw : bodyGet fields "description" with _ | _ | b2 | n2 | s2
      · exact ⟨by simp [postGenerate, hv, hw, checkBlank, hs],
               by simp [postGenerate, hv, hw, checkBlank, hs]⟩
      · exact ⟨by simp [postGenerate, hv, hw, checkBlank, hs],
               by simp [postGenerate, hv, hw, checkBlank, hs]⟩
      · rw [hw] at hd; simp [isBlankVal] at hd
      · rw [hw] at hd; simp [isBlankVal] at hd
      · rw [hw] at hd
        have hs2 : jsTrim s2 = "" := by simpa [isBlankVal] using hd
        exact ⟨by simp [postGenerate, hv, hw, checkBlank, hs, hs2],
               by simp [postGenerate, hv, hw, checkBlank, hs, hs2]⟩

theorem configured_blank_field_400_witness :
    (postGenerate true (.ok (some "X")) 7 "2024-01-01T00:00:00.000Z"
      (some [("title", .str " "), ("description", .str "x")]) []).1 =
      ⟨400, .obj [("error", .str "Required")]⟩ :=
  (configured_blank_field_gives_400_and_no_write (.ok (some "X")) 7
    "2024-01-01T00:00:00.000Z" [("title", .str " "), ("description", .str "x")] []
    (Or.inl (by decide))).1

/-- Claim C9, counterexample: a body whose description is a number but whose
title is blank gets the 400 validation response, not 500 — the
short-circuit check never evaluates trim on the description — so the
claim does not hold for every body containing a non-string field. -/
theorem nonstring_description_blank_title_400_not_500 :
    (postGenerate true (.ok (some "X")) 0 "2024-01-01T00:00:00.000Z"
      (some [("title", .str ""), ("description", .num 1)]) []).1.status = 400 ∧
    (postGenerate true (.ok (some "X")) 0 "2024-01-01T00:00:00.000Z"
      (some [("title", .str ""), ("description", .num 1)]) []).1.status ≠ 500 := by
  exact ⟨rfl, by decide⟩

/-- Claim C9, amended: with the generation client configured, a request whose
title is present, non-null and not a string — or whose title is a
non-blank string and whose description is present, non-null and not a
string — gets status 500 (trim throws a TypeError that the generic catch
turns into a server error), and no record is written. -/
theorem evaluated_nonstring_field_gives_500
    (g : Except JsError (Option String)) (now : Nat) (ca : String)
    (fields : List (String × JsVal)) (files : FsFiles)
    (h : isNonStrValue (bodyGet fields "title") = true ∨
         (isNonBlankStr (bodyGet fields "title") = true ∧
          isNonStrValue (bodyGet fields "description") = true)) :
    (postGenerate true g now ca (some fields) files).1.status = 500 ∧
    (postGenerate true g now ca (some fields) files).2 = files := by
  rcases h with hb | ⟨ht, hd⟩
  · rcases hv : bodyGet fields "title" with _ | _ | b | n | s
    · rw [hv] at hb; simp [isNonStrValue] at hb
    · rw [hv] at hb; simp [isNonStrValue] at hb
    · exact ⟨by simp [postGenerate, hv, checkBlank, failedResponse],
             by simp [postGenerate, hv, checkBlank, failedResponse]⟩
    · exact ⟨by simp [postGenerate, hv, checkBlank, failedResponse],
             by simp [postGenerate, hv, checkBlank, failedResponse]⟩
    · rw [hv] at hb; simp [isNonStrValue] at hb
  · rcases hv : bodyGet fields "title" with _ | _ | b | n | s
    · rw [hv] at ht; simp [isNonBlankStr] at ht
    · rw [hv] at ht; simp [isNonBlankStr] at ht
    · rw [hv] at ht; simp [isNonBlankStr] at ht
    · rw [hv] at ht; simp [isNonBlankStr] at ht
    · rw [hv] at ht
      have hs : ¬(jsTrim s = "") := by simpa [isNonBlankStr] using ht
      rcases hw : bodyGet fields "description" with _ | _ | b2 | n2 | s2
      · rw [hw] at hd; simp [isNonStrValue] at hd
      · rw [hw] at hd; simp [isNonStrValue] at hd
      · exact ⟨by simp [postGenerate, hv, hw, checkBlank, hs, failedResponse],
               by simp [postGenerate, hv, hw, checkBlank, hs, failedResponse]⟩
      · exact ⟨by simp [postGenerate, hv, hw, checkBlank, hs, failedResponse],
               by simp [postGenerate, hv, hw, checkBlank, hs, failedResponse]⟩
      · rw [hw] at hd; simp [isNonStrValue] at hd

theorem evaluated_nonstring_field_500_witness :
    (postGenerate true (.ok (some "X")) 7 "2024-01-01T00:00:00.000Z"
      (some [("title", .num 3), ("description", .str "x")]) []).1.status = 500 :=
  (evaluated_nonstring_field_gives_500 (.ok (some "X")) 7
    "2024-01-01T00:00:00.000Z" [("title", .num 3), ("description", .str "x")] []
    (Or.inl (by decide))).1

/-- Claim C4: On a storage state whose .json files all parse as records with
numeric ids — which every record the server writes is — listAll returns
exactly the stored records (a permutation of the directory contents),
sorted descending by the numeric value of their id field. -/
theorem loadInstances_sorted_desc_by_id
    (files : FsFiles)
    (hp : ∀ f ∈ files, endsWithJson f.1 = true → (f.2).isSome = true)
    (hk : ∀ j ∈ storedJsons files, (jsonIdKey j).isSome = true) :
    (loadInstances (some files)).Perm (storedJsons files) ∧
    (loadInstances (some files)).Pairwise keyGE := by
  rw [loadInstances_eq_sortInsts files hp]
  exact ⟨sortInsts_perm _, pairwise_sortInsts _ hk⟩

theorem loadInstances_sorted_witness :
    (loadInstances (some [("3.json", some (.obj [("id", .str "3")])),
                          ("7.json", some (.obj [("id", .str "7")]))])).Perm
      (storedJsons [("3.json", some (.obj [("id", .str "3")])),
                    ("7.json", some (.obj [("id", .str "7")]))]) ∧
    (loadInstances (some [("3.json", some (.obj [("id", .str "3")])),
                          ("7.json", some (.obj [("id", .str "7")]))])).Pairwise keyGE :=
  loadInstances_sorted_desc_by_id _ (by decide) (by decide)

/-- Claim C6: A record written by save is read back by listAll — whenever the
rest of the directory parses, so the listing is not emptied by the
fail-open catch — and the JSON value stored for it decodes field-for-field
to the very Record save returned. -/
theorem save_then_load_roundtrip
    (files : FsFiles) (now : Nat) (ca ti de res : String)
    (hp : ∀ f ∈ files, endsWithJson f.1 = true → (f.2).isSome = true) :
    instOfJson (instToJson (saveInstance files now ca ti de res).1) =
      some (saveInstance files now ca ti de res).1 ∧
    instToJson (saveInstance files now ca ti de res).1 ∈
      loadInstances (some (saveInstance files now ca ti de res).2) := by
  refine ⟨instOfJson_instToJson _, ?_⟩
  have hp2 : ∀ f ∈ (saveInstance files now ca ti de res).2,
      endsWithJson f.1 = true → (f.2).isSome = true := by
    rw [saveInstance_eq]
    exact writeFileFS_forall _ files _ _ hp (fun _ => rfl)
  rw [loadInstances_eq_sortInsts _ hp2, mem_sortInsts]
  refine mem_storedJsons _ (natToString now ++ ".json") _ ?_ (endsWithJson_append _)
  rw [saveInstance_eq]
  exact mem_writeFileFS_self files _ _

theorem save_then_load_roundtrip_witness :
    instOfJson (instToJson (saveInstance [] 5 "c" "a" "b" "R").1) =
      some (saveInstance [] 5 "c" "a" "b" "R").1 ∧
    instToJson (saveInstance [] 5 "c" "a" "b" "R").1 ∈
      loadInstances (some (saveInstance [] 5 "c" "a" "b" "R").2) :=
  save_then_load_roundtrip [] 5 "c" "a" "b" "R" (by simp)

theorem string_append_right_cancel {a b c : String} (h : a ++ c = b ++ c) :
    a = b := by
  have hd : a.data ++ c.data = b.data ++ c.data := by
    rw [← String.data_append, ← String.data_append, h]
  exact String.ext (List.append_cancel_right hd)

theorem jsonIdKey_of_record (t : Nat) (ti de r ca : String) :
    jsonIdKey (instToJson ⟨natToString t, ti, de, r, ca⟩) = some (t : Int) := by
  rw [jsonIdKey_instToJson]
  exact jsParseInt_natToString t

theorem fileKeyOk_of_storedJsons (files : FsFiles)
    (hk : ∀ j ∈ storedJsons files, (jsonIdKey j).isSome = true) :
    ∀ f ∈ files, FileKeyOk f := by
  intro f hf hjson j hfj
  refine hk j (mem_storedJsons files f.1 j ?_ hjson)
  have : (f.1, some j) = f := by
    rw [← hfj]
  rw [this]
  exact hf

theorem storedJsons_key_of_fileKeyOk (files : FsFiles)
    (h : ∀ f ∈ files, FileKeyOk f) :
    ∀ j ∈ storedJsons files, (jsonIdKey j).isSome = true := by
  intro j hj
  obtain ⟨f, hfmem, hjson, hfj⟩ := exists_of_mem_storedJsons files j hj
  exact h f hfmem hjson j hfj

/-- Claim C7: Two sequential successful generate requests — the second strictly
later in time, the acknowledged same-millisecond collision excluded —
produce records with distinct ids, and in the listing every occurrence of
the newer record precedes every occurrence of the older one. -/
theorem sequential_saves_distinct_ids_newest_first
    (files : FsFiles) (t1 t2 : Nat) (ca1 ca2 ti1 de1 r1 ti2 de2 r2 : String)
    (i1 i2 : ProjectInstance) (f1 f2 : FsFiles)
    (hp : ∀ f ∈ files, endsWithJson f.1 = true → (f.2).isSome = true)
    (hk : ∀ j ∈ storedJsons files, (jsonIdKey j).isSome = true)
    (hlt : t1 < t2)
    (hs1 : saveInstance files t1 ca1 ti1 de1 r1 = (i1, f1))
    (hs2 : saveInstance f1 t2 ca2 ti2 de2 r2 = (i2, f2)) :
    i1.id ≠ i2.id ∧
    instToJson i1 ∈ loadInstances (some f2) ∧
    instToJson i2 ∈ loadInstances (some f2) ∧
    ∀ (i j : Fin (loadInstances (some f2)).length), (i : Nat) < (j : Nat) →
      (loadInstances (some f2)).get i = instToJson i1 →
      (loadInstances (some f2)).get j = instToJson i2 → False := by
  rw [saveInstance_eq, Prod.mk.injEq] at hs1 hs2
  obtain ⟨hi1, hf1⟩ := hs1
  obtain ⟨hi2, hf2⟩ := hs2
  subst hi1 hf1 hi2 hf2
  have hneq : natToString t1 ≠ natToString t2 := by
    intro h
    exact absurd (natToString_injective h) (by omega)
  have hname : natToString t1 ++ ".json" ≠ natToString t2 ++ ".json" := by
    intro h
    exact hneq (string_append_right_cancel h)
  have hkey1 := jsonIdKey_of_record t1 ti1 de1 r1 ca1
  have hkey2 := jsonIdKey_of_record t2 ti2 de2 r2 ca2
  have hp1 : ∀ f ∈ writeFileFS files (natToString t1 ++ ".json")
      (some (instToJson ⟨natToString t1, ti1, de1, r1, ca1⟩)),
      endsWithJson f.1 = true → (f.2).isSome = true :=
    writeFileFS_forall _ files _ _ hp (fun _ => rfl)
  have hp2 : ∀ f ∈ writeFileFS (writeFileFS files (natToString t1 ++ ".json")
      (some (instToJson ⟨natToString t1, ti1, de1, r1, ca1⟩)))
      (natToString t2 ++ ".json")
      (some (instToJson ⟨natToString t2, ti2, de2, r2, ca2⟩)),
      endsWithJson f.1 = true → (f.2).isSome = true :=
    writeFileFS_forall _ _ _ _ hp1 (fun _ => rfl)
  have hok1 : ∀ f ∈ writeFileFS files (natToString t1 ++ ".json")
      (some (instToJson ⟨natToString t1, ti1, de1, r1, ca1⟩)), FileKeyOk f := by
    refine writeFileFS_forall _ files _ _ (fileKeyOk_of_storedJsons files hk) ?_
    intro _ j hj
    rw [Option.some_inj] at hj
    rw [← hj, hkey1]
    rfl
  have hok2 : ∀ f ∈ writeFileFS (writeFileFS files (natToString t1 ++ ".json")
      (some (instToJson ⟨natToString t1, ti1, de1, r1, ca1⟩)))
      (natToString t2 ++ ".json")
      (some (instToJson ⟨natToString t2, ti2, de2, r2, ca2⟩)), FileKeyOk f := by
    refine writeFileFS_forall _ _ _ _ hok1 ?_
    intro _ j hj
    rw [Option.some_inj] at hj
    rw [← hj, hkey2]
    rfl
  have hload := loadInstances_eq_sortInsts _ hp2
  have hmem1 : instToJson (⟨natToString t1, ti1, de1, r1, ca1⟩ : ProjectInstance) ∈
      loadInstances (some (writeFileFS (writeFileFS files (natToString t1 ++ ".json")
        (some (instToJson ⟨natToString t1, ti1, de1, r1, ca1⟩)))
        (natToString t2 ++ ".json")
        (some (instToJson ⟨natToString t2, ti2, de2, r2, ca2⟩)))) := by
    rw [hload, mem_sortInsts]
    refine mem_storedJsons _ (natToString t1 ++ ".json") _ ?_ (endsWithJson_append _)
    exact mem_writeFileFS_of_ne _ _ _ _ (mem_writeFileFS_self files _ _) hname
  have hmem2 : instToJson (⟨natToString t2, ti2, de2, r2, ca2⟩ : ProjectInstance) ∈
      loadInstances (some (writeFileFS (writeFileFS files (natToString t1 ++ ".json")
        (some (instToJson ⟨natToString t1, ti1, de1, r1, ca1⟩)))
        (natToString t2 ++ ".json")
        (some (instToJson ⟨natToString t2, ti2, de2, r2, ca2⟩)))) := by
    rw [hload, mem_sortInsts]
    exact mem_storedJsons _ (natToString t2 ++ ".json") _
      (mem_writeFileFS_self _ _ _) (endsWithJson_append _)
  refine ⟨hneq, hmem1, hmem2, ?_⟩
  intro i j hij hgi hgj
  have hpair : (loadInstances (some (writeFileFS (writeFileFS files
      (natToString t1 ++ ".json")
      (some (instToJson ⟨natToString t1, ti1, de1, r1, ca1⟩)))
      (natToString t2 ++ ".json")
      (some (instToJson ⟨natToString t2, ti2, de2, r2, ca2⟩))))).Pairwise keyGE := by
    rw [hload]
    exact pairwise_sortInsts _ (storedJsons_key_of_fileKeyOk _ hok2)
  have hge := List.pairwise_iff_get.mp hpair i j hij
  rw [hgi, hgj] at hge
  rw [keyGE, hkey1, hkey2] at hge
  simp only [Option.getD_some] at hge
  omega

theorem sequential_saves_witness :
    (⟨natToString 1, "a1", "b1", "R1", "c1"⟩ : ProjectInstance).id ≠
      (⟨natToString 2, "a2", "b2", "R2", "c2"⟩ : ProjectInstance).id ∧
    instToJson (⟨natToString 1, "a1", "b1", "R1", "c1"⟩ : ProjectInstance) ∈
      loadInstances (some
        [(natToString 1 ++ ".json",
          some (instToJson ⟨natToString 1, "a1", "b1", "R1", "c1"⟩)),
         (natToString 2 ++ ".json",
          some (instToJson ⟨natToString 2, "a2", "b2", "R2", "c2"⟩))]) ∧
    instToJson (⟨natToString 2, "a2", "b2", "R2", "c2"⟩ : ProjectInstance) ∈
      loadInstances (some
        [(natToString 1 ++ ".json",
          some (instToJson ⟨natToString 1, "a1", "b1", "R1", "c1"⟩)),
         (natToString 2 ++ ".json",
          some (instToJson ⟨natToString 2, "a2", "b2", "R2", "c2"⟩))]) := by
  have T := sequential_saves_distinct_ids_newest_first
    [] 1 2 "c1" "c2" "a1" "b1" "R1" "a2" "b2" "R2"
    ⟨natToString 1, "a1", "b1", "R1", "c1"⟩
    ⟨natToString 2, "a2", "b2", "R2", "c2"⟩
    [(natToString 1 ++ ".json",
      some (instToJson ⟨natToString 1, "a1", "b1", "R1", "c1"⟩))]
    [(natToString 1 ++ ".json",
      some (instToJson ⟨natToString 1, "a1", "b1", "R1", "c1"⟩)),
     (natToString 2 ++ ".json",
      some (instToJson ⟨natToString 2, "a2", "b2", "R2", "c2"⟩))]
    (by simp) (by simp [storedJsons]) (by omega) rfl rfl
  exact ⟨T.1, T.2.1, T.2.2.1⟩

/-- Claim C8, counterexample: the health response body carries no
generationAvailable and no storageLocation key at all — the code emits
the keys gemini and storage instead — so the claimed field set does not
hold of any configuration. -/
theorem health_lacks_claimed_field_names :
    jsonHasField (healthHandler ⟨some "key", false, "/srv/app"⟩).body
      "generationAvailable" = false ∧
    jsonHasField (healthHandler ⟨some "key", false, "/srv/app"⟩).body
      "storageLocation" = false := by
  exact ⟨rfl, rfl⟩

/-- Claim C8, amended: the health response is a JSON object with the fields
{status, gemini, storage}, where gemini reflects whether the generation
service is configured and storage is the configured storage directory. -/
theorem health_fields_status_gemini_storage (cfg : ServerConfig) :
    (healthHandler cfg).status = 200 ∧
    jsonGetField (healthHandler cfg).body "status" = some (.str "ok") ∧
    jsonGetField (healthHandler cfg).body "gemini" =
      some (.bool (geminiConfigured cfg)) ∧
    jsonGetField (healthHandler cfg).body "storage" =
      some (.str (STORAGE_DIR cfg)) := by
  exact ⟨rfl, rfl, rfl, rfl⟩
